import Mathlib

/-
Shallow embedding of the Gaussian-process kernel library `kernel.py`
(classes Kernel, SVKernel, GaussianKernel_iso, SVGaussianKernel_iso,
GaussianKernel_ard, SVGaussianKernel_ard, MaternKernel3, MaternKernel5).

Real numbers model the floating-point values; numpy 1-D arrays are
modelled as `List ℝ` and numpy's elementwise arithmetic and 1-D
broadcasting are modelled explicitly.  Python exceptions raised by the
numpy operations the code performs (assigning a non-scalar into a matrix
cell, broadcasting incompatible shapes, raising ValueError or
NotImplementedError) are modelled by explicit error values, and a Python
function that falls off the end of its body returns the distinguished
value None (`PyResult.pyNone` below).
-/

noncomputable section

namespace KernelPy

/-- Python exceptions raised by the code or by the numpy operations it uses. -/
inductive PyErr where
  | valueError
  | typeError
  | notImplementedError
deriving DecidableEq

/-- Value of a Python expression as the code produces it: a real scalar, a
numpy 1-D array, the None value (a function body with no return statement),
or an exception raised while computing the value. -/
inductive PyVal where
  | scalar (x : ℝ)
  | arr (v : List ℝ)
  | pynone
  | err (e : PyErr)

/-- The real number carried by a scalar Python value (0 for non-scalars;
used only to name the entries of a covariance matrix whose cov calls are
known to be scalars). -/
def pyScalarVal : PyVal → ℝ
  | .scalar x => x
  | .arr _ => 0
  | .pynone => 0
  | .err _ => 0

/-- Result of a `derivative` call: a matrix, the Python None value (the
function fell through every branch), or a raised exception. -/
inductive PyResult where
  | mat (M : ℕ → ℕ → ℝ)
  | pyNone
  | raised (e : PyErr)

/-- Elementwise difference x1 - x2 of two equal-length numpy vectors. -/
def diff (x1 x2 : List ℝ) : List ℝ := List.zipWith (fun a b => a - b) x1 x2

/-- Squared Euclidean distance: sum of squared per-dimension differences. -/
def sqDist (x1 x2 : List ℝ) : ℝ := ((diff x1 x2).map (fun t => t ^ 2)).sum

/-- numpy.linalg.norm(x1 - x2): the Euclidean distance between two points. -/
def normE (x1 x2 : List ℝ) : ℝ := Real.sqrt (sqDist x1 x2)

/-- numpy.clip(x, lo, hi) on a scalar. -/
def clip (x lo hi : ℝ) : ℝ := min hi (max x lo)

/-- numpy elementwise product with 1-D broadcasting: defined when the two
shapes agree or one of them has length 1; otherwise the operation raises
(modelled as `none`). -/
def bmul (a b : List ℝ) : Option (List ℝ) :=
  if a.length = b.length then some (List.zipWith (fun s t => s * t) a b)
  else if a.length = 1 then some (b.map (fun t => a.getD 0 0 * t))
  else if b.length = 1 then some (a.map (fun s => s * b.getD 0 0))
  else none

/-- The chained assignment `K[i, j] = K[j, i] = v` of the fill loops:
both mirrored cells receive the value v. -/
def writePair (K : ℕ → ℕ → ℝ) (i j : ℕ) (v : ℝ) : ℕ → ℕ → ℝ :=
  fun a b => if (a = i ∧ b = j) ∨ (a = j ∧ b = i) then v else K a b

/-- Index pairs (i, j) visited, in order, by the nested loops
`for i in xrange(N): for j in xrange(b i): ...` of the fill algorithms. -/
def loopPairs (b : ℕ → ℕ) (N : ℕ) : List (ℕ × ℕ) :=
  (List.range N).flatMap (fun i => (List.range (b i)).map (fun j => (i, j)))

/-- The pairs at which `Kernel.covMatrix` invokes `self.cov`, in loop order:
`for i in xrange(NX): for j in xrange(i+1)` (lower triangle with diagonal). -/
def covCalls (N : ℕ) : List (ℕ × ℕ) := loopPairs (fun i => i + 1) N

/-- The pairs visited by the strict lower-triangle loops of the derivative
matrices: `for i in xrange(NX): for j in xrange(i)`. -/
def strictCalls (N : ℕ) : List (ℕ × ℕ) := loopPairs (fun i => i) N

/-- Run a sequence of mirrored-pair writes over an initial matrix. -/
def fillFrom (e : ℕ → ℕ → ℝ) (ps : List (ℕ × ℕ)) (K0 : ℕ → ℕ → ℝ) : ℕ → ℕ → ℝ :=
  ps.foldl (fun K p => writePair K p.1 p.2 (e p.1 p.2)) K0

/-- Assign a Python value into a scalar matrix cell, as numpy does: a real
scalar (or a size-1 array) is stored; a longer array raises ValueError
("setting an array element with a sequence"); None raises TypeError; an
exception raised while computing the value propagates. -/
def writeVal (K : ℕ → ℕ → ℝ) (p : ℕ × ℕ) (v : PyVal) : Except PyErr (ℕ → ℕ → ℝ) :=
  match v with
  | .scalar x => .ok (writePair K p.1 p.2 x)
  | .arr [x] => .ok (writePair K p.1 p.2 x)
  | .arr _ => .error .valueError
  | .pynone => .error .typeError
  | .err e => .error e

/-- Run a sequence of mirrored-pair writes of Python values, stopping at the
first raised exception. -/
def fillME (e : ℕ → ℕ → PyVal) (ps : List (ℕ × ℕ)) (K0 : ℕ → ℕ → ℝ) :
    Except PyErr (ℕ → ℕ → ℝ) :=
  ps.foldlM (fun K p => writeVal K p (e p.1 p.2)) K0

/-- Kernel.covMatrix: K = ones((NX, NX)); for i in xrange(NX): for j in
xrange(i+1): K[i, j] = K[j, i] = self.cov(X[i], X[j]); return K. -/
def covMatrixP (cov : List ℝ → List ℝ → PyVal) (X : List (List ℝ)) :
    Except PyErr (ℕ → ℕ → ℝ) :=
  fillME (fun i j => cov (X.getD i []) (X.getD j [])) (covCalls X.length) (fun _ _ => 1)

/-- The matrix Kernel.covMatrix produces when every cov call yields a scalar:
the same loop over a plain real-valued cov. -/
def covMatrixFn (cov : List ℝ → List ℝ → ℝ) (X : List (List ℝ)) : ℕ → ℕ → ℝ :=
  fillFrom (fun i j => cov (X.getD i []) (X.getD j [])) (covCalls X.length) (fun _ _ => 1)

/-- The stored hyperparameter array together with its numpy write flag. -/
structure ROVector where
  data : List ℝ
  writeable : Bool

/-- Kernel.__init__: self._hyperparams = array(hyperparams);
self._hyperparams.setflags(write=False). -/
def mkStored (l : List ℝ) : ROVector := ⟨l, false⟩

/-- Item assignment a[i] = v on a numpy array: raises ValueError
("assignment destination is read-only") when the write flag is off. -/
def ROVector.setItem (a : ROVector) (i : ℕ) (v : ℝ) : Except PyErr ROVector :=
  if a.writeable then .ok ⟨a.data.set i v, a.writeable⟩ else .error .valueError

/-- SVKernel.__init__: self._sf2 = exp(2.0 * log(mag)), the signal variance. -/
def sf2 (mag : ℝ) : ℝ := Real.exp (2 * Real.log mag)

/-- SVKernel.covScale applied to the value returned by the base kernel's cov:
sf2 * k, elementwise when the base produced an array; multiplying None
raises TypeError; an exception raised by the base propagates. -/
def covScale (s : ℝ) : PyVal → PyVal
  | .scalar x => .scalar (s * x)
  | .arr v => .arr (v.map (fun t => s * t))
  | .pynone => .err .typeError
  | .err e => .err e

/-- GaussianKernel_iso, constructed from its hyperparameter list
[width, noise]. -/
structure GaussianKernel_iso where
  hyperparams : List ℝ

/-- self._theta = clip(hyperparams, 1e-4, 1e4) (elementwise over the whole
hyperparameter vector). -/
def GaussianKernel_iso.theta (k : GaussianKernel_iso) : List ℝ :=
  k.hyperparams.map (fun h => clip h (1 / 10000) 10000)

/-- self._itheta2 = 1 / hyperparams ** 2: elementwise over the whole raw
(unclipped) hyperparameter vector, so it is an array with one entry per
hyperparameter, not the scalar 1 / width². -/
def GaussianKernel_iso.itheta2 (k : GaussianKernel_iso) : List ℝ :=
  k.hyperparams.map (fun h => 1 / h ^ 2)

/-- GaussianKernel_iso.cov: exp(-.5 * norm(x1-x2)**2 * self._itheta2).
Since _itheta2 is an array, the result is an array (one entry per
hyperparameter), not a scalar. -/
def GaussianKernel_iso.cov (k : GaussianKernel_iso) (x1 x2 : List ℝ) : PyVal :=
  .arr (k.itheta2.map (fun t => Real.exp (-(1 / 2) * normE x1 x2 ^ 2 * t)))

/-- self.covMatrix(X) on a GaussianKernel_iso instance. -/
def GaussianKernel_iso.covMatrix (k : GaussianKernel_iso) (X : List (List ℝ)) :
    Except PyErr (ℕ → ℕ → ℝ) :=
  covMatrixP k.cov X

/-- The C matrix of GaussianKernel_iso.derivative for hp = 0: C starts at
zeros, and for j < i the value sum((X[i]-X[j])**2) * self._itheta2 (again an
array) is assigned into the mirrored scalar cells. -/
def isoDerivC (itheta2 : List ℝ) (X : List (List ℝ)) : Except PyErr (ℕ → ℕ → ℝ) :=
  fillME (fun i j => .arr (itheta2.map (fun t => sqDist (X.getD i []) (X.getD j []) * t)))
    (strictCalls X.length) (fun _ _ => 0)

/-- GaussianKernel_iso.derivative(X, hp), parameterized by the cov and
_itheta2 of the instance it runs on (SVGaussianKernel_iso delegates to this
method with itself as the instance): K = self.covMatrix(X) first, then for
hp = 0 the elementwise product K * C, else raise ValueError. -/
def isoDerivCore (cov : List ℝ → List ℝ → PyVal) (itheta2 : List ℝ)
    (X : List (List ℝ)) (hp : ℕ) : PyResult :=
  match covMatrixP cov X with
  | .error e => .raised e
  | .ok K =>
    if hp = 0 then
      match isoDerivC itheta2 X with
      | .error e => .raised e
      | .ok C => .mat (fun a b => K a b * C a b)
    else .raised .valueError

/-- GaussianKernel_iso.derivative(X, hp). -/
def GaussianKernel_iso.derivative (k : GaussianKernel_iso) (X : List (List ℝ))
    (hp : ℕ) : PyResult :=
  isoDerivCore k.cov k.itheta2 X hp

/-- SVGaussianKernel_iso, constructed from [width, noise, magnitude]. -/
structure SVGaussianKernel_iso where
  hyperparams : List ℝ

/-- GaussianKernel_iso.__init__(self, hyperparams[:-1]). -/
def SVGaussianKernel_iso.base (k : SVGaussianKernel_iso) : GaussianKernel_iso :=
  ⟨k.hyperparams.dropLast⟩

/-- SVKernel.__init__(self, hyperparams[-1]). -/
def SVGaussianKernel_iso.magnitude (k : SVGaussianKernel_iso) : ℝ :=
  k.hyperparams.getLastD 0

/-- SVGaussianKernel_iso.cov: self.covScale(GaussianKernel_iso.cov(self, x1, x2)). -/
def SVGaussianKernel_iso.cov (k : SVGaussianKernel_iso) (x1 x2 : List ℝ) : PyVal :=
  covScale (sf2 k.magnitude) (k.base.cov x1 x2)

/-- SVGaussianKernel_iso.derivative: hp == 0 delegates to
GaussianKernel_iso.derivative run on this instance (so with this instance's
scaled cov inside covMatrix); hp == 1 returns 2.0 * self.covMatrix(X); any
other index falls off the end of the function and returns None. -/
def SVGaussianKernel_iso.derivative (k : SVGaussianKernel_iso) (X : List (List ℝ))
    (hp : ℕ) : PyResult :=
  if hp = 0 then isoDerivCore k.cov k.base.itheta2 X 0
  else if hp = 1 then
    match covMatrixP k.cov X with
    | .error e => .raised e
    | .ok K => .mat (fun a b => 2 * K a b)
  else .pyNone

/-- GaussianKernel_ard, constructed from [length_1, ..., length_D, noise]. -/
structure GaussianKernel_ard where
  hyperparams : List ℝ

/-- self._theta = clip(hyperparams, 1e-4, 1e4): clipped elementwise over the
whole hyperparameter vector, noise slot included. -/
def GaussianKernel_ard.theta (k : GaussianKernel_ard) : List ℝ :=
  k.hyperparams.map (fun h => clip h (1 / 10000) 10000)

/-- self._itheta2 = array([1.0/t**2 for t in self._theta]): one entry per
hyperparameter (D+1 entries), noise slot included. -/
def GaussianKernel_ard.itheta2 (k : GaussianKernel_ard) : List ℝ :=
  k.theta.map (fun t => 1 / t ^ 2)

/-- self._magnitude = 1. -/
def GaussianKernel_ard.magnitude (_ : GaussianKernel_ard) : ℝ := 1

/-- The broadcast product self._itheta2 * (x1-x2)**2 of the ard cov;
`none` when the shapes (D+1 and D) do not broadcast. -/
def GaussianKernel_ard.covSum (k : GaussianKernel_ard) (x1 x2 : List ℝ) :
    Option (List ℝ) :=
  bmul k.itheta2 ((diff x1 x2).map (fun t => t ^ 2))

/-- GaussianKernel_ard.cov: self._magnitude * exp(-.5 * sum(self._itheta2 *
(x1-x2)**2)); raises ValueError when the broadcast fails. -/
def GaussianKernel_ard.cov (k : GaussianKernel_ard) (x1 x2 : List ℝ) : PyVal :=
  match k.covSum x1 x2 with
  | some l => .scalar (k.magnitude * Real.exp (-(1 / 2) * l.sum))
  | none => .err .valueError

/-- GaussianKernel_ard has no derivative method of its own (the one in the
source is inside a triple-quoted string), so a call resolves to
Kernel.derivative, which raises NotImplementedError for every index. -/
def GaussianKernel_ard.derivative (_ : GaussianKernel_ard) (_ : List (List ℝ))
    (_ : ℕ) : PyResult :=
  .raised .notImplementedError

/-- SVGaussianKernel_ard, constructed from
[length_1, ..., length_D, noise, magnitude]. -/
structure SVGaussianKernel_ard where
  hyperparams : List ℝ

/-- GaussianKernel_ard.__init__(self, hyperparams[:-1]). -/
def SVGaussianKernel_ard.base (k : SVGaussianKernel_ard) : GaussianKernel_ard :=
  ⟨k.hyperparams.dropLast⟩

/-- SVKernel.__init__(self, hyperparams[-1]). -/
def SVGaussianKernel_ard.magnitude (k : SVGaussianKernel_ard) : ℝ :=
  k.hyperparams.getLastD 0

/-- SVGaussianKernel_ard.cov: self.covScale(GaussianKernel_ard.cov(self, x1, x2)). -/
def SVGaussianKernel_ard.cov (k : SVGaussianKernel_ard) (x1 x2 : List ℝ) : PyVal :=
  covScale (sf2 k.magnitude) (k.base.cov x1 x2)

/-- SVGaussianKernel_ard.derivative: for hp < len(self._theta) the code calls
GaussianKernel_ard.derivative, which resolves to Kernel.derivative and raises
NotImplementedError; for hp == len(self._theta) it returns
2.0 * self.covMatrix(X) (the scaled kernel's own covMatrix); any larger index
falls off the end of the function and returns None.  Note len(self._theta)
is D + 1 (lengths plus the noise slot), not D. -/
def SVGaussianKernel_ard.derivative (k : SVGaussianKernel_ard) (X : List (List ℝ))
    (hp : ℕ) : PyResult :=
  if hp < k.base.theta.length then .raised .notImplementedError
  else if hp = k.base.theta.length then
    match covMatrixP k.cov X with
    | .error e => .raised e
    | .ok K => .mat (fun a b => 2 * K a b)
  else .pyNone

/-- MaternKernel3, constructed from [width, magnitude]. -/
structure MaternKernel3 where
  hyperparams : List ℝ

/-- self._theta = hyperparams[0]. -/
def MaternKernel3.theta (k : MaternKernel3) : ℝ := k.hyperparams.getD 0 0

/-- self._magnitude = hyperparams[1]. -/
def MaternKernel3.magnitude (k : MaternKernel3) : ℝ := k.hyperparams.getD 1 0

/-- self._sf2 = exp(2.0 * log(self._magnitude)). -/
def MaternKernel3.sf2 (k : MaternKernel3) : ℝ := Real.exp (2 * Real.log k.magnitude)

/-- z = self.sqrt3 * norm(x1-x2) / self._theta. -/
def MaternKernel3.z (k : MaternKernel3) (x1 x2 : List ℝ) : ℝ :=
  Real.sqrt 3 * normE x1 x2 / k.theta

/-- MaternKernel3.cov: self._sf2 * (1.0 + z) * exp(-z). -/
def MaternKernel3.cov (k : MaternKernel3) (x1 x2 : List ℝ) : ℝ :=
  k.sf2 * (1 + k.z x1 x2) * Real.exp (-(k.z x1 x2))

/-- MaternKernel3.cov as seen by covMatrix: a real scalar. -/
def MaternKernel3.covP (k : MaternKernel3) (x1 x2 : List ℝ) : PyVal :=
  .scalar (k.cov x1 x2)

/-- self.covMatrix(X) on a MaternKernel3 instance. -/
def MaternKernel3.covMatrix (k : MaternKernel3) (X : List (List ℝ)) :
    Except PyErr (ℕ → ℕ → ℝ) :=
  covMatrixP k.covP X

/-- The C matrix of MaternKernel3.derivative for hp = 0: zeros, then for
j < i the mirrored cells receive self._sf2 * r**2 * exp(-r) with
r = norm(X[i]-X[j]). -/
def MaternKernel3.dC (k : MaternKernel3) (X : List (List ℝ)) : ℕ → ℕ → ℝ :=
  fillFrom
    (fun i j => k.sf2 * normE (X.getD i []) (X.getD j []) ^ 2 *
      Real.exp (-(normE (X.getD i []) (X.getD j []))))
    (strictCalls X.length) (fun _ _ => 0)

/-- MaternKernel3.derivative(X, hp): K = self.covMatrix(X) first; hp = 0
returns the C matrix above, hp = 1 returns 2.0 * K, else raise ValueError. -/
def MaternKernel3.derivative (k : MaternKernel3) (X : List (List ℝ)) (hp : ℕ) :
    PyResult :=
  match k.covMatrix X with
  | .error e => .raised e
  | .ok K =>
    if hp = 0 then .mat (k.dC X)
    else if hp = 1 then .mat (fun a b => 2 * K a b)
    else .raised .valueError

/-- MaternKernel5, constructed from [width, magnitude]. -/
structure MaternKernel5 where
  hyperparams : List ℝ

/-- self._theta = hyperparams[0]. -/
def MaternKernel5.theta (k : MaternKernel5) : ℝ := k.hyperparams.getD 0 0

/-- self._magnitude = hyperparams[1]. -/
def MaternKernel5.magnitude (k : MaternKernel5) : ℝ := k.hyperparams.getD 1 0

/-- self._sf2 = exp(2.0 * log(self._magnitude)). -/
def MaternKernel5.sf2 (k : MaternKernel5) : ℝ := Real.exp (2 * Real.log k.magnitude)

/-- z = sum((sqrt(5.0) * array(x1-x2) / self._theta)**2.0). -/
def MaternKernel5.z (k : MaternKernel5) (x1 x2 : List ℝ) : ℝ :=
  ((diff x1 x2).map (fun t => (Real.sqrt 5 * t / k.theta) ^ 2)).sum

/-- The stationary Matérn 5/2 value the body of MaternKernel5.cov computes
(and then prints): self._sf2 * exp(-sqrt(z)) * (1.0 + sqrt(z) + z/3.0). -/
def MaternKernel5.covVal (k : MaternKernel5) (x1 x2 : List ℝ) : ℝ :=
  k.sf2 * Real.exp (-(Real.sqrt (k.z x1 x2))) *
    (1 + Real.sqrt (k.z x1 x2) + k.z x1 x2 / 3)

/-- MaternKernel5.cov: the body computes covVal, prints it, and ends without
a return statement, so the call returns the Python value None. -/
def MaternKernel5.cov (k : MaternKernel5) (x1 x2 : List ℝ) : PyVal :=
  let _ := k.covVal x1 x2
  .pynone

/-- self.covMatrix(X) on a MaternKernel5 instance. -/
def MaternKernel5.covMatrix (k : MaternKernel5) (X : List (List ℝ)) :
    Except PyErr (ℕ → ℕ → ℝ) :=
  covMatrixP k.cov X

/-- The C matrix of MaternKernel5.derivative for hp = 0: zeros, then for
j < i the mirrored cells receive
self._sf2 * (z + sqrt(z)**3.0) * exp(-sqrt(z)) / 3.0. -/
def MaternKernel5.dC (k : MaternKernel5) (X : List (List ℝ)) : ℕ → ℕ → ℝ :=
  fillFrom
    (fun i j => k.sf2 *
      (k.z (X.getD i []) (X.getD j []) + Real.sqrt (k.z (X.getD i []) (X.getD j [])) ^ 3) *
      Real.exp (-(Real.sqrt (k.z (X.getD i []) (X.getD j [])))) / 3)
    (strictCalls X.length) (fun _ _ => 0)

/-- MaternKernel5.derivative(X, hp): K = self.covMatrix(X) first (which
propagates the failure of cov), then hp = 0 the C matrix, hp = 1 is 2.0 * K,
else raise ValueError. -/
def MaternKernel5.derivative (k : MaternKernel5) (X : List (List ℝ)) (hp : ℕ) :
    PyResult :=
  match k.covMatrix X with
  | .error e => .raised e
  | .ok K =>
    if hp = 0 then .mat (k.dC X)
    else if hp = 1 then .mat (fun a b => 2 * K a b)
    else .raised .valueError

/-- The hyperparams property of each kernel class: the stored read-only
numpy array (Kernel.__init__ sets write=False on it). -/
def GaussianKernel_iso.getHyperparams (k : GaussianKernel_iso) : ROVector :=
  mkStored k.hyperparams

/-- The hyperparams property of SVGaussianKernel_iso (its __init__ re-stores
the full vector, again write-protected). -/
def SVGaussianKernel_iso.getHyperparams (k : SVGaussianKernel_iso) : ROVector :=
  mkStored k.hyperparams

/-- The hyperparams property of GaussianKernel_ard. -/
def GaussianKernel_ard.getHyperparams (k : GaussianKernel_ard) : ROVector :=
  mkStored k.hyperparams

/-- The hyperparams property of SVGaussianKernel_ard. -/
def SVGaussianKernel_ard.getHyperparams (k : SVGaussianKernel_ard) : ROVector :=
  mkStored k.hyperparams

/-- The hyperparams property of MaternKernel3. -/
def MaternKernel3.getHyperparams (k : MaternKernel3) : ROVector :=
  mkStored k.hyperparams

/-- The hyperparams property of MaternKernel5. -/
def MaternKernel5.getHyperparams (k : MaternKernel5) : ROVector :=
  mkStored k.hyperparams

theorem fillFrom_append (e : ℕ → ℕ → ℝ) (ps qs : List (ℕ × ℕ)) (K0 : ℕ → ℕ → ℝ) :
    fillFrom e (ps ++ qs) K0 = fillFrom e qs (fillFrom e ps K0) := by
  simp [fillFrom, List.foldl_append]

theorem fillFrom_row (e : ℕ → ℕ → ℝ) (i : ℕ) :
    ∀ m, m ≤ i + 1 → ∀ (K : ℕ → ℕ → ℝ) (a c : ℕ),
      fillFrom e ((List.range m).map (fun j => (i, j))) K a c =
        if a = i ∧ c < m then e i c
        else if c = i ∧ a < m then e i a
        else K a c := by
  intro m
  induction m with
  | zero => intro _ K a c; simp [fillFrom]
  | succ n ih =>
    intro hm K a c
    have hn : n ≤ i + 1 := Nat.le_of_succ_le hm
    rw [List.range_succ, List.map_append, fillFrom_append]
    have hone : fillFrom e ([n].map (fun j => (i, j)))
        (fillFrom e ((List.range n).map (fun j => (i, j))) K) a c =
        writePair (fillFrom e ((List.range n).map (fun j => (i, j))) K) i n (e i n) a c := rfl
    rw [hone, writePair, ih hn K a c]
    by_cases h1 : (a = i ∧ c = n) ∨ (a = n ∧ c = i)
    · rw [if_pos h1]
      rcases h1 with ⟨hai, hcn⟩ | ⟨han, hci⟩
      · rw [if_pos ⟨hai, by omega⟩, hcn]
      · by_cases h2 : a = i ∧ c < n + 1
        · rw [if_pos h2]
          have h3 : i = n := by omega
          rw [hci, h3]
        · rw [if_neg h2, if_pos ⟨hci, by omega⟩, han]
    · rw [if_neg h1]
      by_cases h2 : a = i ∧ c < n
      · rw [if_pos h2, if_pos ⟨h2.1, by omega⟩]
      · rw [if_neg h2]
        by_cases h3 : c = i ∧ a < n
        · have hD1 : ¬(a = i ∧ c < n + 1) := by
            rintro ⟨hai, hcc⟩
            have hcn : c = n := by omega
            exact h1 (Or.inl ⟨hai, hcn⟩)
          rw [if_pos h3, if_neg hD1, if_pos ⟨h3.1, by omega⟩]
        · have hD1 : ¬(a = i ∧ c < n + 1) := by
            rintro ⟨hai, hcc⟩
            rcases Nat.lt_succ_iff_lt_or_eq.mp hcc with h | h
            · exact h2 ⟨hai, h⟩
            · exact h1 (Or.inl ⟨hai, h⟩)
          have hD2 : ¬(c = i ∧ a < n + 1) := by
            rintro ⟨hci, haa⟩
            rcases Nat.lt_succ_iff_lt_or_eq.mp haa with h | h
            · exact h3 ⟨hci, h⟩
            · exact h1 (Or.inr ⟨h, hci⟩)
          rw [if_neg h3, if_neg hD1, if_neg hD2]

theorem loopPairs_succ (b : ℕ → ℕ) (n : ℕ) :
    loopPairs b (n + 1) = loopPairs b n ++ (List.range (b n)).map (fun j => (n, j)) := by
  unfold loopPairs
  rw [List.range_succ, List.flatMap_append]
  simp only [List.flatMap_cons, List.flatMap_nil, List.append_nil]

theorem fillFrom_loopPairs (e : ℕ → ℕ → ℝ) (b : ℕ → ℕ) (hb : ∀ i, b i ≤ i + 1) :
    ∀ (N : ℕ) (K0 : ℕ → ℕ → ℝ) (a c : ℕ),
      fillFrom e (loopPairs b N) K0 a c =
        if a < N ∧ c < N ∧ min a c < b (max a c) then e (max a c) (min a c)
        else K0 a c := by
  intro N
  induction N with
  | zero => intro K0 a c; simp [loopPairs, fillFrom]
  | succ n ih =>
    intro K0 a c
    rw [loopPairs_succ, fillFrom_append, fillFrom_row e n (b n) (hb n), ih]
    have hbn := hb n
    by_cases h1 : a = n ∧ c < b n
    · obtain ⟨han, hc⟩ := h1
      have hmax : max a c = n := by omega
      have hmin : min a c = c := by omega
      rw [if_pos ⟨han, hc⟩, hmax, hmin, if_pos ⟨by omega, by omega, hc⟩]
    · rw [if_neg h1]
      by_cases h2 : c = n ∧ a < b n
      · obtain ⟨hcn, ha⟩ := h2
        have hmax : max a c = n := by omega
        have hmin : min a c = a := by omega
        rw [if_pos ⟨hcn, ha⟩, hmax, hmin, if_pos ⟨by omega, by omega, ha⟩]
      · rw [if_neg h2]
        by_cases h3 : a < n ∧ c < n
        · obtain ⟨ha, hc⟩ := h3
          by_cases h4 : min a c < b (max a c)
          · rw [if_pos ⟨ha, hc, h4⟩, if_pos ⟨by omega, by omega, h4⟩]
          · rw [if_neg (by tauto), if_neg (by tauto)]
        · rw [if_neg (by tauto)]
          rw [if_neg ?_]
          rintro ⟨ha1, hc1, hlt⟩
          by_cases ha : a < n
          · by_cases hc : c < n
            · exact h3 ⟨ha, hc⟩
            · have hcn : c = n := by omega
              have hmin : min a c = a := by omega
              have hmax : max a c = n := by omega
              rw [hmin, hmax] at hlt
              exact h2 ⟨hcn, hlt⟩
          · have han : a = n := by omega
            have hmax : max a c = n := by omega
            have hmin : min a c = c := by omega
            rw [hmin, hmax] at hlt
            exact h1 ⟨han, hlt⟩

theorem covCalls_eq_loopPairs (N : ℕ) : covCalls N = loopPairs (fun i => i + 1) N := rfl

theorem covMatrixFn_eq (cov : List ℝ → List ℝ → ℝ) (X : List (List ℝ)) (a c : ℕ)
    (ha : a < X.length) (hc : c < X.length) :
    covMatrixFn cov X a c = cov (X.getD (max a c) []) (X.getD (min a c) []) := by
  unfold covMatrixFn covCalls
  rw [fillFrom_loopPairs _ _ (fun i => le_rfl) X.length (fun _ _ => 1) a c,
    if_pos ⟨ha, hc, by omega⟩]

theorem covMatrixFn_outside (cov : List ℝ → List ℝ → ℝ) (X : List (List ℝ)) (a c : ℕ)
    (h : ¬(a < X.length ∧ c < X.length)) :
    covMatrixFn cov X a c = 1 := by
  unfold covMatrixFn covCalls
  rw [fillFrom_loopPairs _ _ (fun i => le_rfl) X.length (fun _ _ => 1) a c,
    if_neg (by tauto)]

theorem covMatrixFn_eq_of_symm (cov : List ℝ → List ℝ → ℝ) (X : List (List ℝ))
    (hsym : ∀ x y, cov x y = cov y x) (a c : ℕ)
    (ha : a < X.length) (hc : c < X.length) :
    covMatrixFn cov X a c = cov (X.getD a []) (X.getD c []) := by
  rw [covMatrixFn_eq cov X a c ha hc]
  rcases le_total a c with h | h
  · have hmax : max a c = c := by omega
    have hmin : min a c = a := by omega
    rw [hmax, hmin, hsym]
  · have hmax : max a c = a := by omega
    have hmin : min a c = c := by omega
    rw [hmax, hmin]

theorem covMatrixFn_symmetric (cov : List ℝ → List ℝ → ℝ) (X : List (List ℝ))
    (a c : ℕ) : covMatrixFn cov X a c = covMatrixFn cov X c a := by
  unfold covMatrixFn covCalls
  rw [fillFrom_loopPairs _ _ (fun i => le_rfl) X.length (fun _ _ => 1) a c,
    fillFrom_loopPairs _ _ (fun i => le_rfl) X.length (fun _ _ => 1) c a,
    min_comm c a, max_comm c a]
  exact if_congr (by tauto) rfl rfl

theorem foldlM_ok {α β ε : Type} (g : β → α → Except ε β) (f : β → α → β) :
    ∀ (l : List α) (ini : β), (∀ b x, x ∈ l → g b x = .ok (f b x)) →
      l.foldlM g ini = .ok (l.foldl f ini) := by
  intro l
  induction l with
  | nil => intro ini _; rfl
  | cons x xs ih =>
    intro ini h
    rw [List.foldlM_cons, h ini x (List.mem_cons_self x xs)]
    show (pure (f ini x) >>= fun b => xs.foldlM g b) = _
    rw [pure_bind, List.foldl_cons]
    exact ih (f ini x) (fun b y hy => h b y (List.mem_cons_of_mem x hy))

theorem covMatrixP_ok (cov : List ℝ → List ℝ → PyVal) (fv : List ℝ → List ℝ → ℝ)
    (X : List (List ℝ))
    (h : ∀ p : ℕ × ℕ, p ∈ covCalls X.length →
      cov (X.getD p.1 []) (X.getD p.2 []) = .scalar (fv (X.getD p.1 []) (X.getD p.2 []))) :
    covMatrixP cov X = .ok (covMatrixFn fv X) := by
  unfold covMatrixP covMatrixFn fillME fillFrom
  apply foldlM_ok
  intro K p hp
  dsimp only
  rw [h p hp]
  rfl

theorem covCalls_cons (n : ℕ) :
    covCalls (n + 1) = (0, 0) :: ((List.range n).map Nat.succ).flatMap
      (fun i => (List.range (i + 1)).map (fun j => (i, j))) := by
  unfold covCalls loopPairs
  rw [List.range_succ_eq_map, List.flatMap_cons]
  have h1 : List.range (0 + 1) = [0] := rfl
  rw [h1]
  rfl

theorem covMatrixP_fail (cov : List ℝ → List ℝ → PyVal) (X : List (List ℝ))
    (hX : X ≠ []) (er : PyErr)
    (h : writeVal (fun _ _ => 1) (0, 0) (cov (X.getD 0 []) (X.getD 0 [])) = .error er) :
    covMatrixP cov X = .error er := by
  obtain ⟨x, xs, rfl⟩ : ∃ x xs, X = x :: xs := by
    cases X with
    | nil => exact absurd rfl hX
    | cons x xs => exact ⟨x, xs, rfl⟩
  unfold covMatrixP fillME
  rw [List.length_cons, covCalls_cons, List.foldlM_cons]
  have h2 : writeVal (fun _ _ => 1) (0, 0)
      (cov ((x :: xs).getD 0 []) ((x :: xs).getD 0 [])) = .error er := h
  rw [h2]
  rfl

theorem diffsq_symm (x y : List ℝ) :
    (diff x y).map (fun t => t ^ 2) = (diff y x).map (fun t => t ^ 2) := by
  unfold diff
  rw [List.map_zipWith, List.map_zipWith,
    List.zipWith_comm_of_comm (fun a b => (a - b) ^ 2) (fun a b => by ring) x y]

theorem sqDist_symm (x y : List ℝ) : sqDist x y = sqDist y x := by
  unfold sqDist
  rw [diffsq_symm]

theorem normE_symm (x y : List ℝ) : normE x y = normE y x := by
  unfold normE
  rw [sqDist_symm]

theorem covCalls_mem (N : ℕ) (p : ℕ × ℕ) :
    p ∈ covCalls N ↔ p.2 ≤ p.1 ∧ p.1 < N := by
  obtain ⟨p1, p2⟩ := p
  simp only [covCalls, loopPairs, List.mem_flatMap, List.mem_map, List.mem_range,
    Prod.mk.injEq]
  constructor
  · rintro ⟨i, hi, j, hj, rfl, rfl⟩
    exact ⟨by omega, hi⟩
  · rintro ⟨h1, h2⟩
    exact ⟨p1, h2, p2, by omega, rfl, rfl⟩

theorem covCalls_nodup (N : ℕ) : (covCalls N).Nodup := by
  induction N with
  | zero => simp [covCalls, loopPairs]
  | succ n ih =>
    have hsplit : covCalls (n + 1) =
        covCalls n ++ (List.range (n + 1)).map (fun j => (n, j)) :=
      loopPairs_succ (fun i => i + 1) n
    rw [hsplit]
    refine List.Nodup.append ih ?_ ?_
    · refine List.Nodup.map ?_ (List.nodup_range _)
      intro a b hab
      simpa using hab
    · intro p hp hq
      rw [covCalls_mem] at hp
      simp only [List.mem_map, List.mem_range] at hq
      obtain ⟨j, _, rfl⟩ := hq
      exact lt_irrefl n hp.2

theorem normE_single (x y : ℝ) : normE [x] [y] = |x - y| := by
  unfold normE sqDist diff
  simp [Real.sqrt_sq_eq_abs]

theorem matern3_cov_symm (k : MaternKernel3) (x y : List ℝ) : k.cov x y = k.cov y x := by
  unfold MaternKernel3.cov MaternKernel3.z
  rw [normE_symm]

theorem matern5_covMatrixP_fail (k : MaternKernel5) (X : List (List ℝ)) (hX : X ≠ []) :
    covMatrixP k.cov X = Except.error PyErr.typeError := by
  apply covMatrixP_fail _ _ hX
  rfl

theorem arr2_covMatrixP_fail (cov : List ℝ → List ℝ → PyVal) (X : List (List ℝ))
    (hX : X ≠ [])
    (h2 : ∀ x y : List ℝ, ∃ l : List ℝ, cov x y = PyVal.arr l ∧ l.length = 2) :
    covMatrixP cov X = Except.error PyErr.valueError := by
  apply covMatrixP_fail _ _ hX
  obtain ⟨l, hl, hlen⟩ := h2 (X.getD 0 []) (X.getD 0 [])
  rw [hl]
  obtain ⟨a, b, rfl⟩ := List.length_eq_two.mp hlen
  rfl

theorem iso_cov_arr2 (k : GaussianKernel_iso) (hlen : k.hyperparams.length = 2)
    (x y : List ℝ) : ∃ l : List ℝ, k.cov x y = PyVal.arr l ∧ l.length = 2 := by
  refine ⟨_, rfl, ?_⟩
  simp [GaussianKernel_iso.itheta2, hlen]

theorem sv_iso_cov_arr2 (k : SVGaussianKernel_iso) (hlen : k.hyperparams.length = 3)
    (x y : List ℝ) : ∃ l : List ℝ, k.cov x y = PyVal.arr l ∧ l.length = 2 := by
  obtain ⟨l, hl, h2⟩ := iso_cov_arr2 k.base (by
    simp [SVGaussianKernel_iso.base, hlen]) x y
  refine ⟨l.map (fun t => sf2 k.magnitude * t), ?_, by simp [h2]⟩
  unfold SVGaussianKernel_iso.cov
  rw [hl]
  rfl

theorem ard_cov_scalar_of_broadcast (k : GaussianKernel_ard) (x y : List ℝ)
    (h : ((diff x y).map (fun t => t ^ 2)).length = 1 ∨
      k.itheta2.length = ((diff x y).map (fun t => t ^ 2)).length ∨
      k.itheta2.length = 1) :
    ∃ v : ℝ, k.cov x y = PyVal.scalar v := by
  have hsome : ∃ l : List ℝ, k.covSum x y = some l := by
    unfold GaussianKernel_ard.covSum bmul
    split_ifs with h1 h2 h3
    · exact ⟨_, rfl⟩
    · exact ⟨_, rfl⟩
    · exact ⟨_, rfl⟩
    · omega
  obtain ⟨l, hl⟩ := hsome
  refine ⟨k.magnitude * Real.exp (-(1 / 2) * l.sum), ?_⟩
  unfold GaussianKernel_ard.cov
  rw [hl]

theorem ard_cov_symm (k : GaussianKernel_ard) (x y : List ℝ) :
    k.cov x y = k.cov y x := by
  unfold GaussianKernel_ard.cov GaussianKernel_ard.covSum
  rw [diffsq_symm]

theorem sv_ard_cov_symm (k : SVGaussianKernel_ard) (x y : List ℝ) :
    k.cov x y = k.cov y x := by
  unfold SVGaussianKernel_ard.cov
  rw [ard_cov_symm]

theorem sv_ard_cov_scalar (k : SVGaussianKernel_ard) (x y : List ℝ)
    (h : ((diff x y).map (fun t => t ^ 2)).length = 1 ∨
      k.base.itheta2.length = ((diff x y).map (fun t => t ^ 2)).length ∨
      k.base.itheta2.length = 1) :
    ∃ v : ℝ, k.cov x y = PyVal.scalar v := by
  obtain ⟨v, hv⟩ := ard_cov_scalar_of_broadcast k.base x y h
  refine ⟨sf2 k.magnitude * v, ?_⟩
  unfold SVGaussianKernel_ard.cov
  rw [hv]
  rfl

/-- C1: the claim states MaternKernel5.cov returns the scalar
sf2 * exp(-sqrt z) * (1 + sqrt z + z/3) to the caller.  The code computes
that value but only prints it; the function body has no return statement,
so every call returns the Python None value instead of the covariance. -/
theorem C1_matern5_cov_returns_none :
    ∀ (k : MaternKernel5) (x1 x2 : List ℝ), k.cov x1 x2 = PyVal.pynone := by
  intro k x1 x2
  rfl

/-- C8: MaternKernel3.cov equals sf2 * (1 + z) * exp(-z) with
z = sqrt 3 * dist / width and sf2 = magnitude^2 (for positive magnitude,
since the code computes sf2 as exp(2 * log magnitude)). -/
theorem C8_matern3_cov_formula (w m : ℝ) (x1 x2 : List ℝ) (hm : 0 < m) :
    MaternKernel3.cov ⟨[w, m]⟩ x1 x2 =
      m ^ 2 * (1 + Real.sqrt 3 * normE x1 x2 / w) *
        Real.exp (-(Real.sqrt 3 * normE x1 x2 / w)) := by
  unfold MaternKernel3.cov MaternKernel3.z MaternKernel3.sf2 MaternKernel3.theta
    MaternKernel3.magnitude
  simp only [List.getD_cons_zero, List.getD_cons_succ]
  have hsf : Real.exp (2 * Real.log m) = m ^ 2 := by
    rw [two_mul, Real.exp_add, Real.exp_log hm]
    ring
  rw [hsf]

/-- C8 witness: the claim's concrete scenario, width 1 and magnitude 2 at the
points [0] and [1]: the covariance is 4 * (1 + sqrt 3) * exp(-sqrt 3). -/
theorem C8_matern3_cov_witness :
    MaternKernel3.cov ⟨[1, 2]⟩ [0] [1] =
      4 * (1 + Real.sqrt 3) * Real.exp (-(Real.sqrt 3)) := by
  rw [C8_matern3_cov_formula 1 2 [0] [1] (by norm_num)]
  rw [normE_single 0 1]
  norm_num

/-- C7: MaternKernel3.derivative(X, 0) returns the matrix whose off-diagonal
entries are sf2 * r^2 * exp(-r) with r the raw Euclidean distance between the
two points, and whose diagonal entries are 0. -/
theorem C7_matern3_width_derivative (k : MaternKernel3) (X : List (List ℝ)) (i j : ℕ)
    (hX : X ≠ []) (hi : i < X.length) (hj : j < X.length) (hij : i ≠ j) :
    MaternKernel3.derivative k X 0 = PyResult.mat (k.dC X) ∧
      k.dC X i j = k.sf2 * normE (X.getD i []) (X.getD j []) ^ 2 *
        Real.exp (-(normE (X.getD i []) (X.getD j []))) ∧
      k.dC X i i = 0 := by
  have hok : covMatrixP k.covP X = .ok (covMatrixFn k.cov X) :=
    covMatrixP_ok _ _ _ (fun p _ => rfl)
  refine ⟨?_, ?_, ?_⟩
  · unfold MaternKernel3.derivative MaternKernel3.covMatrix
    rw [hok]
    rfl
  · unfold MaternKernel3.dC strictCalls
    rw [fillFrom_loopPairs _ _ (fun n => Nat.le_succ n) X.length _ i j,
      if_pos ⟨hi, hj, by omega⟩]
    rcases le_total i j with h | h
    · have hmax : max i j = j := by omega
      have hmin : min i j = i := by omega
      rw [hmax, hmin, normE_symm]
    · have hmax : max i j = i := by omega
      have hmin : min i j = j := by omega
      rw [hmax, hmin]
  · unfold MaternKernel3.dC strictCalls
    rw [fillFrom_loopPairs _ _ (fun n => Nat.le_succ n) X.length _ i i,
      if_neg (by omega)]

/-- C7 witness: for width 1, magnitude 2 and the batch [[0], [1]], the
width-derivative call returns the C matrix, whose (0,1) entry is the coded
formula and whose (0,0) entry is 0. -/
theorem C7_matern3_width_derivative_witness :
    MaternKernel3.derivative ⟨[1, 2]⟩ [[0], [1]] 0 =
        PyResult.mat (MaternKernel3.dC ⟨[1, 2]⟩ [[0], [1]]) ∧
      MaternKernel3.dC ⟨[1, 2]⟩ [[0], [1]] 0 1 =
        MaternKernel3.sf2 ⟨[1, 2]⟩ * normE [0] [1] ^ 2 * Real.exp (-(normE [0] [1])) ∧
      MaternKernel3.dC ⟨[1, 2]⟩ [[0], [1]] 0 0 = 0 := by
  have h := C7_matern3_width_derivative ⟨[1, 2]⟩ [[0], [1]] 0 1
    (by simp) (by simp) (by simp) (by simp)
  exact ⟨h.1, h.2.1, h.2.2⟩

/-- C9: each kernel's stored hyperparameter vector is the construction input
and is exposed through a write-protected numpy array (setflags(write=False)),
so an attempted item assignment through the accessor raises ValueError and
leaves the kernel state untouched. -/
theorem C9_hyperparams_readonly :
    ∀ (l : List ℝ) (i : ℕ) (v : ℝ),
      ((GaussianKernel_iso.mk l).getHyperparams.setItem i v =
          Except.error PyErr.valueError ∧
        (GaussianKernel_iso.mk l).getHyperparams.data = l) ∧
      ((SVGaussianKernel_iso.mk l).getHyperparams.setItem i v =
          Except.error PyErr.valueError ∧
        (SVGaussianKernel_iso.mk l).getHyperparams.data = l) ∧
      ((GaussianKernel_ard.mk l).getHyperparams.setItem i v =
          Except.error PyErr.valueError ∧
        (GaussianKernel_ard.mk l).getHyperparams.data = l) ∧
      ((SVGaussianKernel_ard.mk l).getHyperparams.setItem i v =
          Except.error PyErr.valueError ∧
        (SVGaussianKernel_ard.mk l).getHyperparams.data = l) ∧
      ((MaternKernel3.mk l).getHyperparams.setItem i v =
          Except.error PyErr.valueError ∧
        (MaternKernel3.mk l).getHyperparams.data = l) ∧
      ((MaternKernel5.mk l).getHyperparams.setItem i v =
          Except.error PyErr.valueError ∧
        (MaternKernel5.mk l).getHyperparams.data = l) := by
  intro l i v
  exact ⟨⟨rfl, rfl⟩, ⟨rfl, rfl⟩, ⟨rfl, rfl⟩, ⟨rfl, rfl⟩, ⟨rfl, rfl⟩, ⟨rfl, rfl⟩⟩

/-- C10: MaternKernel5.covMatrix fails for every nonempty batch (the very
first matrix-cell assignment receives None from cov and raises TypeError),
and MaternKernel5.derivative, which builds covMatrix first, fails the same
way for every hyperparameter index, the valid indices 0 and 1 included. -/
theorem C10_matern5_covmatrix_fails (k : MaternKernel5) (X : List (List ℝ))
    (hX : X ≠ []) :
    k.covMatrix X = Except.error PyErr.typeError ∧
      ∀ hp : ℕ, k.derivative X hp = PyResult.raised PyErr.typeError := by
  have h1 : covMatrixP k.cov X = Except.error PyErr.typeError :=
    matern5_covMatrixP_fail k X hX
  refine ⟨h1, fun hp => ?_⟩
  unfold MaternKernel5.derivative MaternKernel5.covMatrix
  rw [h1]

/-- C10 witness: the concrete kernel [2, 3] on the batch [[0], [1]]. -/
theorem C10_matern5_covmatrix_fails_witness :
    MaternKernel5.covMatrix ⟨[2, 3]⟩ [[0], [1]] = Except.error PyErr.typeError ∧
      MaternKernel5.derivative ⟨[2, 3]⟩ [[0], [1]] 0 = PyResult.raised PyErr.typeError ∧
      MaternKernel5.derivative ⟨[2, 3]⟩ [[0], [1]] 1 = PyResult.raised PyErr.typeError := by
  have h := C10_matern5_covmatrix_fails ⟨[2, 3]⟩ [[0], [1]] (by simp)
  exact ⟨h.1, h.2 0, h.2 1⟩

/-- C2: the claim states the unscaled isotropic Gaussian cov is the single
real number exp(-0.5 * dist^2 * itheta2) with itheta2 = 1/width².  The code
computes 1/hyperparams**2 over the whole vector, so _itheta2 is an array and
cov returns a 2-element array (one entry per hyperparameter), never a
scalar; covMatrix's scalar cell assignment then raises ValueError on the
claim's concrete scenario instead of producing the expected matrix. -/
theorem C2_iso_cov_is_vector :
    GaussianKernel_iso.cov ⟨[1, 1]⟩ [0] [1] =
        PyVal.arr [Real.exp (-(1 / 2)), Real.exp (-(1 / 2))] ∧
      GaussianKernel_iso.covMatrix ⟨[1, 1]⟩ [[0], [1], [2]] =
        Except.error PyErr.valueError := by
  have h1 : GaussianKernel_iso.cov ⟨[1, 1]⟩ [0] [1] =
      PyVal.arr [Real.exp (-(1 / 2)), Real.exp (-(1 / 2))] := by
    unfold GaussianKernel_iso.cov GaussianKernel_iso.itheta2
    rw [normE_single 0 1]
    norm_num
  refine ⟨h1, ?_⟩
  unfold GaussianKernel_iso.covMatrix
  exact arr2_covMatrixP_fail _ _ (by simp) (iso_cov_arr2 ⟨[1, 1]⟩ rfl)

/-- C6: the claim states the unscaled ARD Gaussian cov sums
itheta2[d]·(x1[d]-x2[d])² over the D input dimensions only.  The code builds
itheta2 over all D+1 clipped hyperparameters (noise slot included), so for
D = 1 numpy broadcasting adds the noise term to the sum — cov([0],[1]) with
hyperparameters [1, 1] yields exp(-1), not the claimed exp(-1/2) — and for
D ≥ 2 the shapes (D+1) and (D) do not broadcast, so cov raises ValueError. -/
theorem C6_ard_cov_uses_noise_slot :
    GaussianKernel_ard.cov ⟨[1, 1]⟩ [0] [1] = PyVal.scalar (Real.exp (-1)) ∧
      Real.exp (-1) < Real.exp (-(1 / 2)) ∧
      GaussianKernel_ard.cov ⟨[1, 1, 1]⟩ [0, 0] [1, 1] = PyVal.err PyErr.valueError := by
  have hclip : clip 1 (1 / 10000) 10000 = 1 := by
    unfold clip
    rw [max_eq_left (by norm_num), min_eq_right (by norm_num)]
  refine ⟨?_, ?_, ?_⟩
  · have hit : GaussianKernel_ard.itheta2 ⟨[1, 1]⟩ = [1, 1] := by
      unfold GaussianKernel_ard.itheta2 GaussianKernel_ard.theta
      simp only [List.map_cons, List.map_nil, hclip]
      norm_num
    unfold GaussianKernel_ard.cov GaussianKernel_ard.covSum
    rw [hit]
    unfold bmul diff
    norm_num [GaussianKernel_ard.magnitude]
  · exact Real.exp_lt_exp.mpr (by norm_num)
  · have hit : GaussianKernel_ard.itheta2 ⟨[1, 1, 1]⟩ = [1, 1, 1] := by
      unfold GaussianKernel_ard.itheta2 GaussianKernel_ard.theta
      simp only [List.map_cons, List.map_nil, hclip]
      norm_num
    unfold GaussianKernel_ard.cov GaussianKernel_ard.covSum
    rw [hit]
    unfold bmul diff
    norm_num

/-- C3 counterexample: the claim quantifies over every kernel variant, but
the Matérn 5/2 variant's covMatrix never returns a matrix: its cov yields no
value, so the first cell assignment raises TypeError. -/
theorem C3_matern5_covmatrix_counterexample :
    MaternKernel5.covMatrix ⟨[1, 1]⟩ [[0]] = Except.error PyErr.typeError :=
  matern5_covMatrixP_fail ⟨[1, 1]⟩ [[0]] (by simp)

/-- C3 amended: for a kernel whose cov yields a real scalar at every pair the
loop visits (true of Matérn 3/2, and of the ARD variants on broadcastable
shapes, but not of Matérn 5/2 or the array-valued iso variants), covMatrix
returns the matrix with K[i][j] = K[j][i] = cov(X[i], X[j]) for all i, j;
every in-range cell's value is independent of the default fill (so every
entry is explicitly written); the matrix is symmetric; and the loop calls
cov exactly once per pair (i, j) with j ≤ i < N (the call list has no
duplicates and contains exactly those pairs). -/
theorem C3_covmatrix_pairwise_fill (cov : List ℝ → List ℝ → PyVal)
    (fv : List ℝ → List ℝ → ℝ) (X : List (List ℝ)) (hX : X ≠ [])
    (hs : ∀ p : ℕ × ℕ, p ∈ covCalls X.length →
      cov (X.getD p.1 []) (X.getD p.2 []) =
        PyVal.scalar (fv (X.getD p.1 []) (X.getD p.2 [])))
    (hsym : ∀ x y : List ℝ, fv x y = fv y x) :
    covMatrixP cov X = Except.ok (covMatrixFn fv X) ∧
      (∀ i j : ℕ, i < X.length → j < X.length →
        covMatrixFn fv X i j = fv (X.getD i []) (X.getD j [])) ∧
      (∀ (K0 : ℕ → ℕ → ℝ) (i j : ℕ), i < X.length → j < X.length →
        fillFrom (fun a b => fv (X.getD a []) (X.getD b [])) (covCalls X.length) K0 i j =
          fv (X.getD i []) (X.getD j [])) ∧
      (∀ i j : ℕ, covMatrixFn fv X i j = covMatrixFn fv X j i) ∧
      (covCalls X.length).Nodup ∧
      (∀ p : ℕ × ℕ, p ∈ covCalls X.length ↔ p.2 ≤ p.1 ∧ p.1 < X.length) := by
  have hfill : ∀ (K0 : ℕ → ℕ → ℝ) (i j : ℕ), i < X.length → j < X.length →
      fillFrom (fun a b => fv (X.getD a []) (X.getD b [])) (covCalls X.length) K0 i j =
        fv (X.getD i []) (X.getD j []) := by
    intro K0 i j hi hj
    unfold covCalls
    rw [fillFrom_loopPairs _ _ (fun n => le_rfl) X.length K0 i j,
      if_pos ⟨hi, hj, by omega⟩]
    rcases le_total i j with h | h
    · have hmax : max i j = j := by omega
      have hmin : min i j = i := by omega
      rw [hmax, hmin, hsym]
    · have hmax : max i j = i := by omega
      have hmin : min i j = j := by omega
      rw [hmax, hmin]
  exact ⟨covMatrixP_ok cov fv X hs,
    fun i j hi hj => hfill (fun _ _ => 1) i j hi hj,
    hfill,
    covMatrixFn_symmetric fv X,
    covCalls_nodup X.length,
    covCalls_mem X.length⟩

/-- C3 witness: the Matérn 3/2 kernel [1, 2] on the two-point batch
[[0], [1]] satisfies the amended covMatrix description, and so does the
scaled ARD kernel [1, 1, 2] on the same 1-D batch (its cov is scalar at
every pair the loop visits, the shapes being broadcastable there). -/
theorem C3_covmatrix_pairwise_fill_witness :
    (covMatrixP (MaternKernel3.covP ⟨[1, 2]⟩) [[0], [1]] =
        Except.ok (covMatrixFn (MaternKernel3.cov ⟨[1, 2]⟩) [[0], [1]]) ∧
      covMatrixFn (MaternKernel3.cov ⟨[1, 2]⟩) [[0], [1]] 0 1 =
        MaternKernel3.cov ⟨[1, 2]⟩ [0] [1] ∧
      covMatrixFn (MaternKernel3.cov ⟨[1, 2]⟩) [[0], [1]] 0 1 =
        covMatrixFn (MaternKernel3.cov ⟨[1, 2]⟩) [[0], [1]] 1 0 ∧
      (covCalls 2).Nodup) ∧
      covMatrixP (SVGaussianKernel_ard.cov ⟨[1, 1, 2]⟩) [[0], [1]] =
        Except.ok (covMatrixFn
          (fun x y => pyScalarVal (SVGaussianKernel_ard.cov ⟨[1, 1, 2]⟩ x y))
          [[0], [1]]) := by
  constructor
  · have h := C3_covmatrix_pairwise_fill (MaternKernel3.covP ⟨[1, 2]⟩)
      (MaternKernel3.cov ⟨[1, 2]⟩) [[0], [1]] (by simp)
      (fun _ _ => rfl) (matern3_cov_symm ⟨[1, 2]⟩)
    refine ⟨h.1, ?_, h.2.2.2.1 0 1, h.2.2.2.2.1⟩
    have h2 := h.2.1 0 1 (by simp) (by simp)
    simpa using h2
  · have h := C3_covmatrix_pairwise_fill (SVGaussianKernel_ard.cov ⟨[1, 1, 2]⟩)
      (fun x y => pyScalarVal (SVGaussianKernel_ard.cov ⟨[1, 1, 2]⟩ x y)) [[0], [1]]
      (by simp) ?_
      (fun x y => congrArg pyScalarVal (sv_ard_cov_symm ⟨[1, 1, 2]⟩ x y))
    · exact h.1
    · intro p hp
      rcases p with ⟨p1, p2⟩
      have hmem := (covCalls_mem 2 ⟨p1, p2⟩).mp hp
      have hp1 : p1 < 2 := hmem.2
      have hp2 : p2 < 2 := by
        have : p2 ≤ p1 := hmem.1
        omega
      have hsc : ∃ v : ℝ, SVGaussianKernel_ard.cov ⟨[1, 1, 2]⟩
          (([[0], [1]] : List (List ℝ)).getD p1 [])
          (([[0], [1]] : List (List ℝ)).getD p2 []) = PyVal.scalar v := by
        apply sv_ard_cov_scalar
        left
        have hx : (([[0], [1]] : List (List ℝ)).getD p1 []).length = 1 := by
          interval_cases p1 <;> rfl
        have hy : (([[0], [1]] : List (List ℝ)).getD p2 []).length = 1 := by
          interval_cases p2 <;> rfl
        unfold diff
        rw [List.length_map, List.length_zipWith, hx, hy]
        omega
      obtain ⟨v, hv⟩ := hsc
      dsimp only
      rw [hv]
      rfl

/-- C4 counterexample: the claim states derivative with an out-of-range
index raises the invalid-argument condition for every variant, and in
particular for the signal-variance-scaled iso variant past its magnitude
index.  SVGaussianKernel_iso.derivative has no else branch: for index 2 it
falls off the end and returns None, raising nothing. -/
theorem C4_sv_iso_returns_none_counterexample :
    SVGaussianKernel_iso.derivative ⟨[1, 1, 1]⟩ [[0]] 2 = PyResult.pyNone := by
  rfl

/-- C4 amended: out-of-range behavior per kernel variant.  Only
MaternKernel3 raises ValueError on an invalid index; GaussianKernel_ard
(whose own derivative is commented out) raises NotImplementedError for every
index; the two signal-variance-scaled variants silently return None for
indices past their last handled slot; MaternKernel5 and the unscaled iso
variant fail inside the covMatrix they build before the index check
(TypeError from the None covariances, ValueError from the array-valued
covariances). -/
theorem C4_invalid_index_per_variant :
    (∀ (k : MaternKernel3) (X : List (List ℝ)) (hp : ℕ), X ≠ [] → hp ≠ 0 → hp ≠ 1 →
        k.derivative X hp = PyResult.raised PyErr.valueError) ∧
      (∀ (k : GaussianKernel_ard) (X : List (List ℝ)) (hp : ℕ),
        k.derivative X hp = PyResult.raised PyErr.notImplementedError) ∧
      (∀ (k : SVGaussianKernel_iso) (X : List (List ℝ)) (hp : ℕ), 2 ≤ hp →
        k.derivative X hp = PyResult.pyNone) ∧
      (∀ (k : SVGaussianKernel_ard) (X : List (List ℝ)) (hp : ℕ),
        k.base.theta.length < hp → k.derivative X hp = PyResult.pyNone) ∧
      (∀ (k : MaternKernel5) (X : List (List ℝ)) (hp : ℕ), X ≠ [] →
        k.derivative X hp = PyResult.raised PyErr.typeError) ∧
      (∀ (k : GaussianKernel_iso) (X : List (List ℝ)) (hp : ℕ), X ≠ [] →
        k.hyperparams.length = 2 → k.derivative X hp = PyResult.raised PyErr.valueError) := by
  refine ⟨?_, ?_, ?_, ?_, ?_, ?_⟩
  · intro k X hp _ h0 h1
    have hok : covMatrixP k.covP X = .ok (covMatrixFn k.cov X) :=
      covMatrixP_ok _ _ _ (fun p _ => rfl)
    unfold MaternKernel3.derivative MaternKernel3.covMatrix
    rw [hok]
    show (if hp = 0 then _ else if hp = 1 then _ else PyResult.raised PyErr.valueError) = _
    rw [if_neg h0, if_neg h1]
  · intro k X hp
    rfl
  · intro k X hp h
    unfold SVGaussianKernel_iso.derivative
    rw [if_neg (by omega), if_neg (by omega)]
  · intro k X hp h
    unfold SVGaussianKernel_ard.derivative
    rw [if_neg (by omega), if_neg (by omega)]
  · intro k X hp hX
    have h1 : covMatrixP k.cov X = Except.error PyErr.typeError :=
      matern5_covMatrixP_fail k X hX
    unfold MaternKernel5.derivative MaternKernel5.covMatrix
    rw [h1]
  · intro k X hp hX hlen
    have h1 : covMatrixP k.cov X = Except.error PyErr.valueError :=
      arr2_covMatrixP_fail _ _ hX (iso_cov_arr2 k hlen)
    unfold GaussianKernel_iso.derivative isoDerivCore
    rw [h1]

/-- C4 witness: concrete instances of the amended per-variant behavior. -/
theorem C4_invalid_index_witness :
    MaternKernel3.derivative ⟨[1, 2]⟩ [[0], [1]] 7 = PyResult.raised PyErr.valueError ∧
      SVGaussianKernel_iso.derivative ⟨[1, 1, 1]⟩ [[0]] 3 = PyResult.pyNone ∧
      GaussianKernel_iso.derivative ⟨[1, 1]⟩ [[0]] 0 = PyResult.raised PyErr.valueError := by
  exact ⟨C4_invalid_index_per_variant.1 ⟨[1, 2]⟩ [[0], [1]] 7 (by simp)
      (by decide) (by decide),
    C4_invalid_index_per_variant.2.2.1 ⟨[1, 1, 1]⟩ [[0]] 3 (by decide),
    C4_invalid_index_per_variant.2.2.2.2.2 ⟨[1, 1]⟩ [[0]] 0 (by simp) rfl⟩

/-- C5 counterexample: the claim states the scaled ARD variant's magnitude
behavior (2 * base covariance matrix) is triggered exactly at index D, with
indices below D delegating to a working base derivative.  For D = 1 points
and hyperparameters [1, 1, 2], index D = 1 is below len(theta) = 2, so the
call reaches the commented-out base derivative and raises
NotImplementedError instead. -/
theorem C5_sv_ard_trigger_counterexample :
    SVGaussianKernel_ard.derivative ⟨[1, 1, 2]⟩ [[0], [1]] 1 =
      PyResult.raised PyErr.notImplementedError := by
  rfl

/-- C5 amended: for the scaled ARD variant the magnitude behavior triggers
at index len(theta) = D + 1 (the clipped base vector keeps the noise slot),
and it returns 2 * K where K is the covariance matrix built with the scaled
kernel's own cov (sf2 included), not the unscaled base matrix; every index
below D + 1 raises NotImplementedError; and for the scaled iso variant the
magnitude index 1 attempts 2 * covMatrix of the scaled kernel, which raises
ValueError because that cov yields a 2-element array. -/
theorem C5_magnitude_derivative_behavior :
    (∀ (k : SVGaussianKernel_ard) (X : List (List ℝ)) (hp : ℕ),
        hp < k.base.theta.length →
        k.derivative X hp = PyResult.raised PyErr.notImplementedError) ∧
      (∀ (k : SVGaussianKernel_ard) (X : List (List ℝ)),
        (∀ p : ℕ × ℕ, p ∈ covCalls X.length →
          ∃ v : ℝ, k.cov (X.getD p.1 []) (X.getD p.2 []) = PyVal.scalar v) →
        k.derivative X k.base.theta.length =
          PyResult.mat (fun a b =>
            2 * covMatrixFn (fun x y => pyScalarVal (k.cov x y)) X a b)) ∧
      (∀ (k : SVGaussianKernel_iso) (X : List (List ℝ)), X ≠ [] →
        k.hyperparams.length = 3 →
        k.derivative X 1 = PyResult.raised PyErr.valueError) := by
  refine ⟨?_, ?_, ?_⟩
  · intro k X hp h
    unfold SVGaussianKernel_ard.derivative
    rw [if_pos h]
  · intro k X hsc
    have hok : covMatrixP k.cov X =
        .ok (covMatrixFn (fun x y => pyScalarVal (k.cov x y)) X) := by
      apply covMatrixP_ok
      intro p hp
      obtain ⟨v, hv⟩ := hsc p hp
      rw [hv]
      rfl
    unfold SVGaussianKernel_ard.derivative
    rw [if_neg (by omega), if_pos rfl, hok]
  · intro k X hX hlen
    have h1 : covMatrixP k.cov X = Except.error PyErr.valueError :=
      arr2_covMatrixP_fail _ _ hX (sv_iso_cov_arr2 k hlen)
    unfold SVGaussianKernel_iso.derivative
    rw [if_neg (by omega), if_pos rfl, h1]

/-- C5 witness: the scaled ARD kernel [1, 1, 2] over the 1-D batch
[[0], [1]]: index 0 (below D + 1 = 2) raises NotImplementedError, and index
2 = len(theta) returns twice the scaled kernel's own covariance matrix. -/
theorem C5_magnitude_derivative_witness :
    SVGaussianKernel_ard.derivative ⟨[1, 1, 2]⟩ [[0], [1]] 0 =
        PyResult.raised PyErr.notImplementedError ∧
      SVGaussianKernel_ard.derivative ⟨[1, 1, 2]⟩ [[0], [1]] 2 =
        PyResult.mat (fun a b =>
          2 * covMatrixFn
            (fun x y => pyScalarVal (SVGaussianKernel_ard.cov ⟨[1, 1, 2]⟩ x y))
            [[0], [1]] a b) := by
  constructor
  · exact C5_magnitude_derivative_behavior.1 ⟨[1, 1, 2]⟩ [[0], [1]] 0 (by decide)
  · have h := C5_magnitude_derivative_behavior.2.1 ⟨[1, 1, 2]⟩ [[0], [1]] ?_
    · exact h
    · intro p hp
      rcases p with ⟨p1, p2⟩
      have hmem := (covCalls_mem 2 ⟨p1, p2⟩).mp hp
      have hp1 : p1 < 2 := hmem.2
      have hp2 : p2 < 2 := by
        have : p2 ≤ p1 := hmem.1
        omega
      apply sv_ard_cov_scalar
      left
      have hx : ([[0], [1]] : List (List ℝ)).getD p1 [] = [0] ∨
          ([[0], [1]] : List (List ℝ)).getD p1 [] = [1] := by
        interval_cases p1
        · left; rfl
        · right; rfl
      have hy : ([[0], [1]] : List (List ℝ)).getD p2 [] = [0] ∨
          ([[0], [1]] : List (List ℝ)).getD p2 [] = [1] := by
        interval_cases p2
        · left; rfl
        · right; rfl
      rcases hx with hx | hx <;> rcases hy with hy | hy <;>
        rw [hx, hy] <;> simp [diff]

end KernelPy
